import Mathlib

/-!
Shallow embedding of `src/server.js` (clin-assist-backend).

The server keeps an in-memory map `sessions : Map sessionId {chunks, transcript}`,
handles WebSocket messages `audioChunk` / `chunkEnd` / `end` per session, and
exposes a one-shot batch endpoint `POST /one-shot`.  We model:

* JS strings as lists of characters (`Str`);
* the two external providers (speech-to-text and language model) as explicit
  result oracles (`Except Str Str`, error message or returned text), consumed
  one result per call in call order;
* `JSON.parse` applied to the model output as an abstract partial parser
  `Str → Option J` for an arbitrary parsed-summary type `J`;
* each invocation of the `ws.on('message')` handler as a step function
  `stepMsg` from a run state to a run state, recording the externally visible
  actions (messages sent, provider calls issued, socket close, map deletion)
  in an ordered effect list;
* the batch handler as the function `oneShot`;
* the `sessions` map operations as association-list operations;
* the event-loop interleaving of two in-flight `chunkEnd` transcription calls
  as a small-step system `concStep` whose `flushStart` event is the
  synchronous part of the `chunkEnd` handler (join + buffer reset + issuing
  the call) and whose `flushDone` event is the `await` continuation
  (transcript append).
-/

namespace ClinAssist

/-- JS strings, modelled as lists of characters. -/
abbrev Str := List Char

/-- The space character the server inserts between transcript segments
(`transcript += ' ' + transcription.text`). -/
def spc : Char := ' '

/-- Whitespace predicate used to model `String.prototype.trim()`. -/
def isWsChar (c : Char) : Bool := c.isWhitespace

/-- `String.prototype.trim()`: remove whitespace from both ends. -/
def jsTrim (s : Str) : Str :=
  ((s.dropWhile isWsChar).reverse.dropWhile isWsChar).reverse

/-- One session record: `sessions.set(sessionId, { chunks: [], transcript: '' })`
(server.js line 29).  `chunks` holds the base64 chunk payloads in arrival
order; `transcript` is the accumulated transcript string. -/
structure Session where
  chunks : List Str
  transcript : Str
deriving DecidableEq

/-- Parsed client messages, the `payload.type` discriminator of the
`ws.on('message')` handler.  `other` is any JSON message whose `type` is none
of the three recognised strings. -/
inductive ClientMsg where
  | audioChunk (data : Str)
  | chunkEnd
  | endMsg
  | other
deriving DecidableEq

/-- Errors reaching the handler's `catch` block, sent as
`{type:'error', message: err.message}`. -/
inductive JsErr where
  /-- The `TypeError` raised by `sessions.get(sessionId).<field>` when the
  session has been deleted from the map (`get` returned `undefined`). -/
  | undefinedAccess (field : Str)
  /-- A rejected provider call (Whisper or GPT), carrying its message. -/
  | provider (message : Str)
  /-- Modelled from the spec: the spec's error taxonomy names an
  `InvalidStateTransition` error for out-of-sequence messages.  The code of
  `server.js` never constructs such an error; this constructor exists only so
  that the spec's claim can be stated and compared with what the code emits. -/
  | invalidStateTransition
deriving DecidableEq

/-- The summary included in the `final` message / batch response: either the
model output parsed as JSON, or the fallback object
`{error: ..., raw: <model text>}` built in the `catch` around `JSON.parse`. -/
inductive Summary (J : Type) where
  | parsed (v : J)
  | fallback (errMsg : Str) (raw : Str)
deriving DecidableEq

/-- Server-to-client WebSocket messages. -/
inductive ServerMsg (J : Type) where
  | session (sid : Nat)
  | partialTranscript (text : Str)
  | final (transcript : Str) (summary : Summary J)
  | error (e : JsErr)
deriving DecidableEq

/-- Externally visible actions of one handler invocation, in program order. -/
inductive Effect (J : Type) where
  | send (m : ServerMsg J)
  | transcribeCall (unit : Str)
  | summarizeCall (prompt : Str)
  | wsClose
  | storeDelete
deriving DecidableEq

/-- The connection-local state: this session's entry in the `sessions` map
(`none` after `sessions.delete(sessionId)`), and whether `ws.close()` was
called. -/
structure WsState where
  store : Option Session
  closed : Bool
deriving DecidableEq

/-- A running session: connection state, the remaining transcription results
(one consumed per Whisper call), the remaining summarization results (one
consumed per GPT call), and the accumulated effect trace. -/
structure RunState (J : Type) where
  ws : WsState
  trs : List (Except Str Str)
  sms : List (Except Str Str)
  effects : List (Effect J)

/-- Default oracle value when a result list is exhausted (models a provider
call that never received a scripted response; treated as a failure, and never
reached in the theorems below, which always supply enough results). -/
def oracleExhausted : Str := "no scripted response".toList

/-- Next provider result: head of the oracle list, or the exhausted default. -/
def headOr : List (Except Str Str) → Except Str Str
  | [] => Except.error oracleExhausted
  | r :: _ => r

/-- `summary = { error: "Invalid JSON from model", raw: ... }` (server.js line 83). -/
def invalidJsonFromModelMsg : Str := "Invalid JSON from model".toList

/-- `summary = { error: "Invalid JSON", raw: ... }` (server.js line 131). -/
def invalidJsonMsg : Str := "Invalid JSON".toList

/-- The fixed instructional part of the summarization prompt shared by both
paths (template literal in server.js lines 64-71 and 112-119). -/
def promptHead : Str :=
  "\nYou are a clinical note helper. Convert the given doctor-patient transcript into concise SOAP sections and redFlags.\nReturn ONLY JSON:\n\x7b\"subjective\":[],\"objective\":[],\"assessment\":[],\"plan\":[],\"redFlags\":[]\x7d\n\nTranscript:\n".toList

/-- The streaming-path prompt built from the trimmed full transcript. -/
def streamPrompt (fullText : Str) : Str :=
  promptHead ++ fullText ++ "\n        ".toList

/-- The batch-path prompt built from the whole-file transcript. -/
def oneShotPrompt (text : Str) : Str :=
  promptHead ++ text ++ "\n    ".toList

/-- `try { JSON.parse(raw) } catch { fallback }` applied to the model output. -/
def parseOrFallback {J : Type} (parse : Str → Option J) (errMsg raw : Str) : Summary J :=
  match parse raw with
  | some v => Summary.parsed v
  | none => Summary.fallback errMsg raw

/-- One invocation of the `ws.on('message')` handler (server.js lines 33-95),
run to completion (each `await` resolved with the next oracle result).

* `audioChunk`: `sessions.get(sessionId).chunks.push(payload.data)`; throws a
  `TypeError` (caught, sent as an error message) if the session was deleted.
* `chunkEnd`: joins the buffered chunks with `''`, resets the buffer, issues
  the transcription call; on success appends `' ' + text` to the transcript
  and sends `partialTranscript`, on rejection the `catch` block sends an
  error message (the buffer stays reset, nothing is appended).
* `endMsg`: reads `transcript.trim()`, issues the summarization call; on
  success sends `final`, closes the socket and deletes the session; on
  rejection sends an error message and changes nothing.
* `other`: none of the three `if` branches fires; nothing happens. -/
def stepMsg {J : Type} (parse : Str → Option J) (rs : RunState J) :
    ClientMsg → RunState J
  | ClientMsg.audioChunk d =>
    match rs.ws.store with
    | none =>
      { rs with effects := rs.effects ++
          [Effect.send (ServerMsg.error (JsErr.undefinedAccess "chunks".toList))] }
    | some s =>
      { rs with ws := { rs.ws with
          store := some { chunks := s.chunks ++ [d], transcript := s.transcript } } }
  | ClientMsg.chunkEnd =>
    match rs.ws.store with
    | none =>
      { rs with effects := rs.effects ++
          [Effect.send (ServerMsg.error (JsErr.undefinedAccess "chunks".toList))] }
    | some s =>
      match headOr rs.trs with
      | Except.error m =>
        { ws := { store := some { chunks := [], transcript := s.transcript },
                  closed := rs.ws.closed },
          trs := rs.trs.tail, sms := rs.sms,
          effects := rs.effects ++
            [Effect.transcribeCall s.chunks.flatten,
             Effect.send (ServerMsg.error (JsErr.provider m))] }
      | Except.ok t =>
        { ws := { store := some { chunks := [], transcript := s.transcript ++ spc :: t },
                  closed := rs.ws.closed },
          trs := rs.trs.tail, sms := rs.sms,
          effects := rs.effects ++
            [Effect.transcribeCall s.chunks.flatten,
             Effect.send (ServerMsg.partialTranscript t)] }
  | ClientMsg.endMsg =>
    match rs.ws.store with
    | none =>
      { rs with effects := rs.effects ++
          [Effect.send (ServerMsg.error (JsErr.undefinedAccess "transcript".toList))] }
    | some s =>
      match headOr rs.sms with
      | Except.error m =>
        { rs with
          sms := rs.sms.tail
          effects := rs.effects ++
            [Effect.summarizeCall (streamPrompt (jsTrim s.transcript)),
             Effect.send (ServerMsg.error (JsErr.provider m))] }
      | Except.ok raw =>
        { ws := { store := none, closed := true },
          trs := rs.trs, sms := rs.sms.tail,
          effects := rs.effects ++
            [Effect.summarizeCall (streamPrompt (jsTrim s.transcript)),
             Effect.send (ServerMsg.final (jsTrim s.transcript)
               (parseOrFallback parse invalidJsonFromModelMsg raw)),
             Effect.wsClose, Effect.storeDelete] }
  | ClientMsg.other => rs

/-- Sequential processing of a list of messages: each handler invocation runs
to completion (its awaited provider call resolves) before the next message is
handled. -/
def runMsgs {J : Type} (parse : Str → Option J) :
    List ClientMsg → RunState J → RunState J
  | [], rs => rs
  | m :: ms, rs => runMsgs parse ms (stepMsg parse rs m)

/-- The transcription results that succeed, in flush (call) order, for a given
message list and transcription oracle; mirrors exactly how `runMsgs` consumes
the oracle (one result per `chunkEnd`). -/
def successSegs : List ClientMsg → List (Except Str Str) → List Str
  | [], _ => []
  | ClientMsg.chunkEnd :: ms, trs =>
    match headOr trs with
    | Except.ok t => t :: successSegs ms trs.tail
    | Except.error _ => successSegs ms trs.tail
  | ClientMsg.audioChunk _ :: ms, trs => successSegs ms trs
  | ClientMsg.endMsg :: ms, trs => successSegs ms trs
  | ClientMsg.other :: ms, trs => successSegs ms trs

/-- The transcript string the code accumulates for a list of segments:
`' ' + seg` appended per segment. -/
def leadSp : List Str → Str
  | [] => []
  | t :: ts => (spc :: t) ++ leadSp ts

/-- Space-separated concatenation of segments (the spec's description of the
final transcript, before trimming). -/
def joinSp : List Str → Str
  | [] => []
  | [t] => t
  | t :: ts => t ++ spc :: joinSp ts

/-- HTTP response body of `POST /one-shot`. -/
inductive HttpBody (J : Type) where
  | errorBody (msg : Str)
  | bodySuccess (transcript : Str) (summary : Summary J)
deriving DecidableEq

/-- HTTP response of `POST /one-shot`. -/
structure HttpResp (J : Type) where
  status : Nat
  body : HttpBody J
deriving DecidableEq

/-- The batch handler `app.post('/one-shot')` (server.js lines 103-143):
`file` is `req.file`'s byte content (`none` when no file was attached — note
an attached zero-byte file is `some []`, not `none`); `tr` and `sm` are the
results of the transcription and summarization calls.  Returns the response
and the provider calls issued. -/
def oneShot {J : Type} (parse : Str → Option J) (file : Option Str)
    (tr sm : Except Str Str) : HttpResp J × List (Effect J) :=
  match file with
  | none => (⟨400, HttpBody.errorBody "No audio".toList⟩, [])
  | some bytes =>
    match tr with
    | Except.error m => (⟨500, HttpBody.errorBody m⟩, [Effect.transcribeCall bytes])
    | Except.ok text =>
      match sm with
      | Except.error m =>
        (⟨500, HttpBody.errorBody m⟩,
         [Effect.transcribeCall bytes, Effect.summarizeCall (oneShotPrompt text)])
      | Except.ok raw =>
        (⟨200, HttpBody.bodySuccess text (parseOrFallback parse invalidJsonMsg raw)⟩,
         [Effect.transcribeCall bytes, Effect.summarizeCall (oneShotPrompt text)])

/-- Modelled from the spec (amended claim C7): the batch endpoint's response —
400 `{error:"No audio"}` exactly when no file is attached (an attached empty
file proceeds to the providers), 500 with the provider's message when either
external call fails, otherwise 200 with `{transcript, summary}` where the
summary is the parse-or-fallback of the model output. -/
def oneShotRespAmended {J : Type} (parse : Str → Option J) (file : Option Str)
    (tr sm : Except Str Str) : HttpResp J :=
  match file with
  | none => ⟨400, HttpBody.errorBody "No audio".toList⟩
  | some _ =>
    match tr with
    | Except.error m => ⟨500, HttpBody.errorBody m⟩
    | Except.ok text =>
      match sm with
      | Except.error m => ⟨500, HttpBody.errorBody m⟩
      | Except.ok raw =>
        ⟨200, HttpBody.bodySuccess text (parseOrFallback parse invalidJsonMsg raw)⟩

/-- `sessions.get(k)`: the `sessions` map modelled as an association list. -/
def sessionsGet (m : List (Nat × Session)) (k : Nat) : Option Session :=
  match m.find? (fun e => e.1 == k) with
  | some e => some e.2
  | none => none

/-- `sessions.delete(k)`. -/
def sessionsDelete (m : List (Nat × Session)) (k : Nat) : List (Nat × Session) :=
  m.filter (fun e => e.1 != k)

/-- `sessions.set(k, v)` (insert or overwrite). -/
def sessionsSet (m : List (Nat × Session)) (k : Nat) (v : Session) :
    List (Nat × Session) :=
  sessionsDelete m k ++ [(k, v)]

/-- State for the interleaved (event-loop) semantics of the `chunkEnd`
handler: the chunk buffer, the transcript, the in-flight transcription calls
(job id paired with the text the provider will eventually return), and the
flush units issued so far, in issue order. -/
structure ConcState where
  chunks : List Str
  transcript : Str
  pending : List (Nat × Str)
  flushed : List Str
deriving DecidableEq

/-- Event-loop events.  `recvChunk` is the (synchronous) `audioChunk` handler.
`flushStart` is the synchronous part of the `chunkEnd` handler up to the
`await`: join the buffer, reset it, issue the transcription call.
`flushDone` is the continuation after the `await` resolves: append
`' ' + text` to the transcript.  The event loop may run `flushDone` events in
any order relative to the issue order — the code takes no step to serialize
them. -/
inductive ConcEvent where
  | recvChunk (d : Str)
  | flushStart (job : Nat) (result : Str)
  | flushDone (job : Nat)
deriving DecidableEq

/-- One event-loop step. -/
def concStep (s : ConcState) : ConcEvent → ConcState
  | ConcEvent.recvChunk d => { s with chunks := s.chunks ++ [d] }
  | ConcEvent.flushStart j r =>
    { s with
      chunks := []
      pending := s.pending ++ [(j, r)]
      flushed := s.flushed ++ [s.chunks.flatten] }
  | ConcEvent.flushDone j =>
    match s.pending.find? (fun p => p.1 == j) with
    | some p =>
      { s with
        transcript := s.transcript ++ spc :: p.2
        pending := s.pending.filter (fun p => p.1 != j) }
    | none => s

/-- Run a sequence of event-loop events. -/
def runConc (evs : List ConcEvent) (s : ConcState) : ConcState :=
  evs.foldl concStep s

/-- Concrete run for claim C3: arrivals `audioChunk "QQ=="`, `chunkEnd`,
`chunkEnd`, with the second transcription resolving before the first. -/
def c3race : ConcState :=
  runConc
    [ConcEvent.recvChunk "QQ==".toList,
     ConcEvent.flushStart 0 "a".toList,
     ConcEvent.flushStart 1 "b".toList,
     ConcEvent.flushDone 1,
     ConcEvent.flushDone 0]
    ⟨[], [], [], []⟩

/-- The same arrivals processed sequentially (each transcription resolves
before the next message is handled). -/
def c3seq : RunState Unit :=
  runMsgs (fun _ => none)
    [ClientMsg.audioChunk "QQ==".toList, ClientMsg.chunkEnd, ClientMsg.chunkEnd]
    ⟨⟨some ⟨[], []⟩, false⟩, [Except.ok "a".toList, Except.ok "b".toList], [], []⟩

/-- Concrete run for claim C5: a live session receiving `end` twice. -/
def c5run : RunState Unit :=
  runMsgs (fun _ => none) [ClientMsg.endMsg, ClientMsg.endMsg]
    ⟨⟨some ⟨[], "hi".toList⟩, false⟩, [], [Except.ok "x".toList], []⟩

/-- Concrete run for claim C6: a `chunkEnd` whose transcription call fails. -/
def c6run : RunState Unit :=
  stepMsg (fun _ => none)
    ⟨⟨some ⟨["QQ==".toList], "prev".toList⟩, false⟩,
     [Except.error "boom".toList], [], []⟩
    ClientMsg.chunkEnd

/-! ## Helper lemmas -/

theorem runMsgs_append {J : Type} (parse : Str → Option J) (a b : List ClientMsg)
    (rs : RunState J) :
    runMsgs parse (a ++ b) rs = runMsgs parse b (runMsgs parse a rs) := by
  induction a generalizing rs with
  | nil => simp [runMsgs]
  | cons m ms ih => simp [runMsgs, ih]

theorem jsTrim_spc (s : Str) : jsTrim (spc :: s) = jsTrim s := by
  have h : isWsChar spc = true := by decide
  simp [jsTrim, List.dropWhile_cons, h]

theorem leadSp_eq_spc_joinSp : ∀ (t : Str) (ts : List Str),
    leadSp (t :: ts) = spc :: joinSp (t :: ts) := by
  intro t ts
  induction ts generalizing t with
  | nil => simp [leadSp, joinSp]
  | cons u us ih =>
    have h1 := ih u
    simp only [leadSp, List.cons_append] at h1
    rw [List.cons.injEq] at h1
    simp [leadSp, joinSp, h1.2]

theorem jsTrim_leadSp_eq (ts : List Str) : jsTrim (leadSp ts) = jsTrim (joinSp ts) := by
  cases ts with
  | nil => rfl
  | cons t ts => rw [leadSp_eq_spc_joinSp, jsTrim_spc]

/-- Processing a run of `audioChunk` messages only appends the payloads to the
chunk buffer, in arrival order, with no other change and no effect. -/
theorem run_audioChunks {J : Type} (parse : Str → Option J) :
    ∀ (datas cs : List Str) (t0 : Str) (c : Bool)
      (trs sms : List (Except Str Str)) (eff : List (Effect J)),
      runMsgs parse (datas.map ClientMsg.audioChunk) ⟨⟨some ⟨cs, t0⟩, c⟩, trs, sms, eff⟩ =
        ⟨⟨some ⟨cs ++ datas, t0⟩, c⟩, trs, sms, eff⟩ := by
  intro datas
  induction datas with
  | nil => intro cs t0 c trs sms eff; simp [runMsgs]
  | cons d ds ih =>
    intro cs t0 c trs sms eff
    simp only [List.map_cons, runMsgs, stepMsg]
    rw [ih (cs ++ [d])]
    simp

/-- Invariant for message runs containing no `end`: the session stays in the
store, the transcript grows by exactly the successful segments (each prefixed
with a space) in flush order, `closed` and the summarization oracle are
untouched, and the emitted effects contain no `final` message and no store
deletion. -/
theorem run_no_end {J : Type} (parse : Str → Option J) :
    ∀ (msgs : List ClientMsg) (trs sms : List (Except Str Str)) (eff : List (Effect J))
      (cs : List Str) (t0 : Str) (c : Bool),
      (∀ m ∈ msgs, m ≠ ClientMsg.endMsg) →
      ∃ cs' trs' effD,
        runMsgs parse msgs ⟨⟨some ⟨cs, t0⟩, c⟩, trs, sms, eff⟩ =
          ⟨⟨some ⟨cs', t0 ++ leadSp (successSegs msgs trs)⟩, c⟩, trs', sms, eff ++ effD⟩ ∧
        (∀ t su, Effect.send (ServerMsg.final t su) ∉ effD) ∧
        Effect.storeDelete ∉ effD := by
  intro msgs
  induction msgs with
  | nil =>
    intro trs sms eff cs t0 c _
    exact ⟨cs, trs, [], by simp [runMsgs, successSegs, leadSp], by simp, by simp⟩
  | cons m ms ih =>
    intro trs sms eff cs t0 c h
    have hms : ∀ x ∈ ms, x ≠ ClientMsg.endMsg := fun x hx => h x (List.mem_cons_of_mem m hx)
    cases m with
    | audioChunk d =>
      obtain ⟨cs', trs', effD, he, hf, hd⟩ := ih trs sms eff (cs ++ [d]) t0 c hms
      refine ⟨cs', trs', effD, ?_, hf, hd⟩
      simpa [runMsgs, stepMsg, successSegs] using he
    | chunkEnd =>
      cases htr : headOr trs with
      | ok t =>
        obtain ⟨cs', trs', effD, he, hf, hd⟩ :=
          ih trs.tail sms
            (eff ++ [Effect.transcribeCall cs.flatten,
              Effect.send (ServerMsg.partialTranscript t)])
            [] (t0 ++ spc :: t) c hms
        refine ⟨cs', trs',
          Effect.transcribeCall cs.flatten ::
            Effect.send (ServerMsg.partialTranscript t) :: effD, ?_, ?_, ?_⟩
        · simp only [runMsgs, stepMsg, htr]
          rw [he]
          simp [successSegs, htr, leadSp, List.append_assoc]
        · intro t' su'
          simp [hf t' su']
        · simp [hd]
      | error m =>
        obtain ⟨cs', trs', effD, he, hf, hd⟩ :=
          ih trs.tail sms
            (eff ++ [Effect.transcribeCall cs.flatten,
              Effect.send (ServerMsg.error (JsErr.provider m))])
            [] t0 c hms
        refine ⟨cs', trs',
          Effect.transcribeCall cs.flatten ::
            Effect.send (ServerMsg.error (JsErr.provider m)) :: effD, ?_, ?_, ?_⟩
        · simp only [runMsgs, stepMsg, htr]
          rw [he]
          simp [successSegs, htr, List.append_assoc]
        · intro t' su'
          simp [hf t' su']
        · simp [hd]
    | endMsg => exact absurd rfl (h ClientMsg.endMsg (List.mem_cons_self _ _))
    | other =>
      obtain ⟨cs', trs', effD, he, hf, hd⟩ := ih trs sms eff cs t0 c hms
      exact ⟨cs', trs', effD, by simpa [runMsgs, stepMsg, successSegs] using he, hf, hd⟩

/-! ## Claim theorems -/

/-- Claim C1: for every session, the transcript included in the `final`
message equals the ordered, space-separated, trimmed concatenation of every
successfully transcribed segment in flush order, regardless of how many
`chunkEnd` cycles occurred before the `end` message (messages processed
sequentially, each transcription resolving before the next message). -/
theorem final_transcript_joins_success_segments {J : Type} (parse : Str → Option J)
    (msgs : List ClientMsg) (trs sms : List (Except Str Str)) (raw : Str)
    (h : ∀ m ∈ msgs, m ≠ ClientMsg.endMsg) :
    Effect.send (ServerMsg.final (jsTrim (joinSp (successSegs msgs trs)))
        (parseOrFallback parse invalidJsonFromModelMsg raw)) ∈
      (runMsgs parse (msgs ++ [ClientMsg.endMsg])
        ⟨⟨some ⟨[], []⟩, false⟩, trs, Except.ok raw :: sms, []⟩).effects ∧
    ∀ t su, Effect.send (ServerMsg.final t su) ∈
      (runMsgs parse (msgs ++ [ClientMsg.endMsg])
        ⟨⟨some ⟨[], []⟩, false⟩, trs, Except.ok raw :: sms, []⟩).effects →
      t = jsTrim (joinSp (successSegs msgs trs)) := by
  obtain ⟨cs', trs', effD, he, hf, _⟩ :=
    run_no_end parse msgs trs (Except.ok raw :: sms) [] [] [] false h
  simp only [List.nil_append] at he
  rw [runMsgs_append, he]
  simp only [runMsgs, stepMsg, headOr]
  rw [jsTrim_leadSp_eq]
  constructor
  · simp
  · intro t su hmem
    rcases List.mem_append.mp hmem with h1 | h2
    · exact absurd h1 (hf t su)
    · simp only [List.mem_cons, List.not_mem_nil, or_false] at h2
      rcases h2 with h2 | h2 | h2 | h2 <;> simp_all

/-- Witness for C1: chunks `"QQ=="` then three `chunkEnd` cycles whose
transcriptions return "hello", fail, and return "world"; the final transcript
is `"hello world"`. -/
theorem final_transcript_joins_success_segments_witness :
    Effect.send (ServerMsg.final ("hello world".toList)
        (Summary.fallback invalidJsonFromModelMsg "not json".toList)) ∈
      (runMsgs (fun _ => (none : Option Unit))
        ([ClientMsg.audioChunk "QQ==".toList, ClientMsg.chunkEnd, ClientMsg.chunkEnd,
          ClientMsg.chunkEnd] ++ [ClientMsg.endMsg])
        ⟨⟨some ⟨[], []⟩, false⟩,
         [Except.ok "hello".toList, Except.error "boom".toList, Except.ok "world".toList],
         Except.ok "not json".toList :: [], []⟩).effects :=
  (final_transcript_joins_success_segments (fun _ => none)
    [ClientMsg.audioChunk "QQ==".toList, ClientMsg.chunkEnd, ClientMsg.chunkEnd,
      ClientMsg.chunkEnd]
    [Except.ok "hello".toList, Except.error "boom".toList, Except.ok "world".toList]
    [] "not json".toList (by decide)).1

/-- Claim C2: for every sequence of `audioChunk` messages followed by one
`chunkEnd`, the flushed unit submitted to the transcription call is the exact
concatenation of the chunk payloads in arrival order (empty sequence giving
an empty unit), and the chunk buffer is empty immediately after the flush. -/
theorem flush_unit_is_chunk_concat {J : Type} (parse : Str → Option J)
    (datas : List Str) (t0 : Str) (c : Bool) (r : Except Str Str)
    (trs sms : List (Except Str Str)) (eff : List (Effect J)) :
    runMsgs parse (datas.map ClientMsg.audioChunk ++ [ClientMsg.chunkEnd])
        ⟨⟨some ⟨[], t0⟩, c⟩, r :: trs, sms, eff⟩ =
      ⟨⟨some ⟨[], match r with
          | Except.ok t => t0 ++ spc :: t
          | Except.error _ => t0⟩, c⟩,
       trs, sms,
       eff ++ Effect.transcribeCall datas.flatten ::
         (match r with
          | Except.ok t => [Effect.send (ServerMsg.partialTranscript t)]
          | Except.error m => [Effect.send (ServerMsg.error (JsErr.provider m))])⟩ := by
  rw [runMsgs_append, run_audioChunks]
  cases r <;> simp [runMsgs, stepMsg, headOr]

/-- Claim C3 (code bug): the code does not serialize flushes per session.  In
the interleaved event-loop semantics, the arrivals `audioChunk "QQ=="`,
`chunkEnd`, `chunkEnd` with the second transcription resolving first yield
the transcript `" b a"` — the segments in completion order, not flush order —
while sequential processing of the same arrivals yields `" a b"`.  (The two
flush units `"QQ=="` and `""` are both captured; only the ordering breaks.) -/
theorem racing_flushes_can_invert_segment_order :
    (match c3seq.ws.store with | some s => s.transcript | none => []) = " a b".toList ∧
    c3race.transcript = " b a".toList ∧
    c3race.flushed = ["QQ==".toList, []] ∧
    c3race.pending = [] ∧
    " b a".toList ≠ " a b".toList := by decide

/-- Claim C4: malformed language-model output never aborts finalize.  With a
summarization result `raw` that does not parse as JSON, the streaming `end`
handler still sends `final` with the fallback summary
`{error: "Invalid JSON from model", raw}`, closes the socket and deletes the
session; and the batch path returns 200 with the fallback summary
`{error: "Invalid JSON", raw}`. -/
theorem malformed_model_output_still_finalizes {J : Type} (parse : Str → Option J)
    (s : Session) (c : Bool) (trs sms : List (Except Str Str)) (eff : List (Effect J))
    (raw bytes t : Str) (h : parse raw = none) :
    stepMsg parse ⟨⟨some s, c⟩, trs, Except.ok raw :: sms, eff⟩ ClientMsg.endMsg =
      ⟨⟨none, true⟩, trs, sms,
        eff ++ [Effect.summarizeCall (streamPrompt (jsTrim s.transcript)),
          Effect.send (ServerMsg.final (jsTrim s.transcript)
            (Summary.fallback invalidJsonFromModelMsg raw)),
          Effect.wsClose, Effect.storeDelete]⟩ ∧
    (oneShot parse (some bytes) (Except.ok t) (Except.ok raw)).1 =
      ⟨200, HttpBody.bodySuccess t (Summary.fallback invalidJsonMsg raw)⟩ := by
  constructor
  · simp [stepMsg, headOr, parseOrFallback, h]
  · simp [oneShot, parseOrFallback, h]

/-- Witness for C4 at the spec's stub input `"not json"`. -/
theorem malformed_model_output_still_finalizes_witness :
    stepMsg (fun _ => (none : Option Unit))
        ⟨⟨some ⟨[], "hi".toList⟩, false⟩, [], [Except.ok "not json".toList], []⟩
        ClientMsg.endMsg =
      ⟨⟨none, true⟩, [], [],
        [Effect.summarizeCall (streamPrompt (jsTrim "hi".toList)),
         Effect.send (ServerMsg.final (jsTrim "hi".toList)
           (Summary.fallback invalidJsonFromModelMsg "not json".toList)),
         Effect.wsClose, Effect.storeDelete]⟩ ∧
    (oneShot (fun _ => (none : Option Unit)) (some "QQ".toList)
        (Except.ok "hello".toList) (Except.ok "not json".toList)).1 =
      ⟨200, HttpBody.bodySuccess "hello".toList
        (Summary.fallback invalidJsonMsg "not json".toList)⟩ :=
  malformed_model_output_still_finalizes (fun _ => none) ⟨[], "hi".toList⟩ false [] [] []
    "not json".toList "QQ".toList "hello".toList rfl

/-- Claim C5 (amended): sending `end` twice on a live session produces exactly
one `final` message and exactly one store deletion; the second `end` is
answered with an error reply caused by the deleted-session lookup (the caught
`TypeError` reading `transcript` of `undefined`) — not a distinguished
`InvalidStateTransition` — and mutates nothing. -/
theorem double_end_one_final_one_delete {J : Type} (parse : Str → Option J)
    (s : Session) (c : Bool) (raw : Str) (trs sms : List (Except Str Str)) :
    runMsgs parse [ClientMsg.endMsg, ClientMsg.endMsg]
        ⟨⟨some s, c⟩, trs, Except.ok raw :: sms, []⟩ =
      ⟨⟨none, true⟩, trs, sms,
        [Effect.summarizeCall (streamPrompt (jsTrim s.transcript)),
         Effect.send (ServerMsg.final (jsTrim s.transcript)
           (parseOrFallback parse invalidJsonFromModelMsg raw)),
         Effect.wsClose, Effect.storeDelete,
         Effect.send (ServerMsg.error (JsErr.undefinedAccess "transcript".toList))]⟩ := by
  simp [runMsgs, stepMsg, headOr]

/-- Counterexample to C5 as stated: in the concrete double-`end` run the
reply to the second `end` is the undefined-access error, and no
`InvalidStateTransition` error is ever emitted. -/
theorem second_end_error_not_invalid_state_transition :
    c5run.effects.getLast? =
      some (Effect.send (ServerMsg.error (JsErr.undefinedAccess "transcript".toList))) ∧
    Effect.send (ServerMsg.error JsErr.invalidStateTransition) ∉ c5run.effects ∧
    c5run.ws.store = none := by decide

/-- Claim C6 (amended): on completion of the transcription call for a flushed
unit the session keeps accepting messages (its store entry remains, with the
chunk buffer cleared); on success the segment is appended to the transcript
and `partialTranscript` is sent, but on handled failure only an error reply
is sent — no marker is appended to the transcript log. -/
theorem chunk_flush_completion_behavior {J : Type} (parse : Str → Option J)
    (s : Session) (c : Bool) (r : Except Str Str)
    (trs sms : List (Except Str Str)) (eff : List (Effect J)) :
    stepMsg parse ⟨⟨some s, c⟩, r :: trs, sms, eff⟩ ClientMsg.chunkEnd =
      ⟨⟨some ⟨[], match r with
          | Except.ok t => s.transcript ++ spc :: t
          | Except.error _ => s.transcript⟩, c⟩,
       trs, sms,
       eff ++ Effect.transcribeCall s.chunks.flatten ::
         (match r with
          | Except.ok t => [Effect.send (ServerMsg.partialTranscript t)]
          | Except.error m => [Effect.send (ServerMsg.error (JsErr.provider m))])⟩ := by
  cases r <;> rfl

/-- Counterexample to C6 as stated: a failed transcription leaves the
transcript exactly as it was — no error-marker segment is appended. -/
theorem failed_transcription_appends_no_marker :
    c6run.ws.store = some ⟨[], "prev".toList⟩ ∧
    c6run.effects = [Effect.transcribeCall "QQ==".toList,
      Effect.send (ServerMsg.error (JsErr.provider "boom".toList))] := by decide

/-- Claim C7 (amended): the batch pipeline returns 400 `{error:"No audio"}`
exactly when no file is attached (an attached empty file proceeds to the
providers), 500 carrying the provider's message when either external call
fails, and otherwise 200 with `{transcript, summary}`. -/
theorem one_shot_matches_amended_responses {J : Type} (parse : Str → Option J)
    (file : Option Str) (tr sm : Except Str Str) :
    (oneShot parse file tr sm).1 = oneShotRespAmended parse file tr sm := by
  cases file <;> cases tr <;> cases sm <;> rfl

/-- Counterexample to C7 as stated: an attached zero-byte file is not
rejected with 400 `{error:"No audio"}` — the code only checks for a missing
file, so the empty input reaches the transcription provider and surfaces as
500 (or succeeds with 200). -/
theorem present_empty_file_not_rejected_400 :
    (oneShot (fun _ => (none : Option Unit)) (some ([] : Str))
        (Except.error "boom".toList) (Except.ok "x".toList)).1 =
      ⟨500, HttpBody.errorBody "boom".toList⟩ ∧
    (oneShot (fun _ => (none : Option Unit)) (some ([] : Str))
        (Except.ok [] ) (Except.ok "x".toList)).1.status = 200 ∧
    (⟨500, HttpBody.errorBody "boom".toList⟩ : HttpResp Unit) ≠
      ⟨400, HttpBody.errorBody "No audio".toList⟩ := by decide

/-- Claim C8 (code bug): the code deletes a session only inside the `end`
handler — for every message sequence containing no `end`, the session is
still in the store afterwards and no deletion effect was emitted.  The source
installs no idle timer and no socket-close handler, so an abandoned session
is never reclaimed. -/
theorem sessions_never_deleted_without_end {J : Type} (parse : Str → Option J)
    (msgs : List ClientMsg) (trs sms : List (Except Str Str))
    (h : ∀ m ∈ msgs, m ≠ ClientMsg.endMsg) :
    (runMsgs parse msgs ⟨⟨some ⟨[], []⟩, false⟩, trs, sms, []⟩).ws.store ≠ none ∧
    Effect.storeDelete ∉
      (runMsgs parse msgs ⟨⟨some ⟨[], []⟩, false⟩, trs, sms, []⟩).effects := by
  obtain ⟨cs', trs', effD, he, _, hd⟩ := run_no_end parse msgs trs sms [] [] [] false h
  rw [he]
  exact ⟨by simp, by simpa using hd⟩

/-- Witness for C8: an abandoned session (chunks and a flush, never `end`)
is still in the store at the end of the trace. -/
theorem sessions_never_deleted_without_end_witness :
    (runMsgs (fun _ => (none : Option Unit))
        [ClientMsg.audioChunk "QQ==".toList, ClientMsg.chunkEnd, ClientMsg.other]
        ⟨⟨some ⟨[], []⟩, false⟩, [Except.ok "hi".toList], [], []⟩).ws.store ≠ none ∧
    Effect.storeDelete ∉
      (runMsgs (fun _ => (none : Option Unit))
        [ClientMsg.audioChunk "QQ==".toList, ClientMsg.chunkEnd, ClientMsg.other]
        ⟨⟨some ⟨[], []⟩, false⟩, [Except.ok "hi".toList], [], []⟩).effects :=
  sessions_never_deleted_without_end (fun _ => none)
    [ClientMsg.audioChunk "QQ==".toList, ClientMsg.chunkEnd, ClientMsg.other]
    [Except.ok "hi".toList] [] (by decide)

/-- Claim C9: `get` on a deleted or never-created session identifier yields
`NotFound` (`none`), never a stale session. -/
theorem get_deleted_or_unknown_yields_none (m : List (Nat × Session)) (k : Nat) :
    sessionsGet (sessionsDelete m k) k = none ∧
    ((∀ e ∈ m, e.1 ≠ k) → sessionsGet m k = none) := by
  constructor
  · induction m with
    | nil => rfl
    | cons e m ih =>
      by_cases h : e.1 = k
      · simpa [sessionsDelete, List.filter_cons, h] using ih
      · simpa [sessionsDelete, sessionsGet, List.filter_cons, List.find?_cons, h] using ih
  · induction m with
    | nil => intro _; rfl
    | cons e m ih =>
      intro h
      have he : e.1 ≠ k := h e (List.mem_cons_self e m)
      have ih' := ih fun x hx => h x (List.mem_cons_of_mem e hx)
      simpa [sessionsGet, List.find?_cons, he] using ih'

/-- Witness for C9 at a concrete store. -/
theorem get_deleted_or_unknown_yields_none_witness :
    sessionsGet (sessionsDelete [(1, ⟨[], []⟩)] 1) 1 = none ∧
    sessionsGet [(1, (⟨[], []⟩ : Session))] 2 = none :=
  ⟨(get_deleted_or_unknown_yields_none [(1, ⟨[], []⟩)] 1).1,
   (get_deleted_or_unknown_yields_none [(1, ⟨[], []⟩)] 2).2 (by decide)⟩

/-- Claim C10: a parsed message whose `type` is none of `audioChunk`,
`chunkEnd`, `end` is silently ignored: the run state — chunk buffer,
transcript, store entry, oracles and emitted effects — is unchanged and no
reply of any kind is sent. -/
theorem unknown_message_type_is_ignored {J : Type} (parse : Str → Option J)
    (rs : RunState J) :
    stepMsg parse rs ClientMsg.other = rs := rfl

end ClinAssist
